import Mathlib

/-!
# Verification of the wbtl-app/timer countdown engine

A shallow embedding of the timer/alarm engine of `src/unnamed/part_000`
(the `<script setup>` block of the Vue single-file component), together
with proofs about the claims of the specification.

Modelling conventions:

* JavaScript numbers holding whole seconds are modelled as `Int`
  (the input fields are bound with `v-model.number` and may hold any
  number the user types, including values outside the declared
  `min`/`max` range of the `<input>` elements).
* The browser's timer environment is made explicit: `liveIntervals` is
  the set (as a list) of interval ids currently armed by
  `window.setInterval`, `liveTimeouts` the list of `(id, fireTime)`
  pairs armed by `window.setTimeout`, and `nextId` a fresh-handle
  counter.  `clearInterval`/`clearTimeout` on an id that is not live is
  a no-op, exactly as in the browser.
* Wall-clock time is the `now` field (whole seconds).  The only
  `setTimeout` call in the source is the alarm auto-dismiss in
  `startAlarm` (10000 ms = 10 s) whose callback is `stopAlarm`, so
  delivery of a due timeout runs `stopAlarm`.  Interval callbacks (the
  tick closure inside `startTimer`) are delivered by explicit
  `tickFire` events, which may arrive at arbitrary instants: the spec
  insists delivery is not exactly periodic.
* `startAlarmCalls` is instrumentation only: it counts invocations of
  `startAlarm` (the registered expiry callback) and is read by no
  operation.
-/

namespace Timer

/-- The alarm flashing mode selector (`flashingMode` ref in the source):
`'none' | 'fade' | 'slow' | 'fast'`. -/
inductive FlashMode where
  | nofl
  | fade
  | slow
  | fast
deriving DecidableEq

/-- The reactive state of the component together with the explicit
browser-timer environment.  Fields `inputHours` … `alarmIntervalId`
mirror the refs and module-level handle variables of the source
one-to-one; `liveIntervals`, `liveTimeouts`, `nextId`, `now` model the
browser, and `startAlarmCalls` counts expiry-callback invocations. -/
structure AppState where
  inputHours : Int
  inputMinutes : Int
  inputSeconds : Int
  originalTime : Int
  remainingTime : Int
  isRunning : Bool
  hasStarted : Bool
  intervalId : Option Nat
  isAlarming : Bool
  alarmTimeoutId : Option Nat
  alarmIntervalId : Option Nat
  flashingMode : FlashMode
  liveIntervals : List Nat
  liveTimeouts : List (Nat × Int)
  nextId : Nat
  now : Int
  startAlarmCalls : Nat
deriving DecidableEq

/-- The component's initial state: all refs start at `0`/`false`/`null`,
`flashingMode` starts at `'none'`; the browser environment starts with
no armed timers at instant `0`. -/
def initState : AppState :=
  { inputHours := 0, inputMinutes := 0, inputSeconds := 0
    originalTime := 0, remainingTime := 0
    isRunning := false, hasStarted := false
    intervalId := none
    isAlarming := false, alarmTimeoutId := none, alarmIntervalId := none
    flashingMode := FlashMode.nofl
    liveIntervals := [], liveTimeouts := []
    nextId := 0, now := 0, startAlarmCalls := 0 }

/-- `window.setInterval`: returns a fresh handle and arms it. -/
def setIntervalOp (s : AppState) : Nat × AppState :=
  (s.nextId,
   { s with liveIntervals := s.nextId :: s.liveIntervals, nextId := s.nextId + 1 })

/-- `window.clearInterval id`: disarms the handle; a no-op (and no
error) when the handle is not armed. -/
def clearIntervalOp (id : Nat) (s : AppState) : AppState :=
  { s with liveIntervals := s.liveIntervals.erase id }

/-- `window.setTimeout` with a delay in whole seconds: returns a fresh
handle armed to fire at `now + delay`. -/
def setTimeoutOp (delay : Int) (s : AppState) : Nat × AppState :=
  (s.nextId,
   { s with liveTimeouts := (s.nextId, s.now + delay) :: s.liveTimeouts,
            nextId := s.nextId + 1 })

/-- `window.clearTimeout id`: disarms the handle; a no-op (and no
error) when the handle is not armed or has already fired. -/
def clearTimeoutOp (id : Nat) (s : AppState) : AppState :=
  { s with liveTimeouts := s.liveTimeouts.filter (fun p => p.1 != id) }

/-- `startAlarm` from the source: bump the invocation counter
(instrumentation), return early when `flashingMode === 'none'`,
otherwise set `isAlarming` and arm the 10-second (10000 ms)
auto-dismiss timeout whose callback is `stopAlarm`. -/
def startAlarm (s : AppState) : AppState :=
  let s := { s with startAlarmCalls := s.startAlarmCalls + 1 }
  if s.flashingMode = FlashMode.nofl then s
  else
    let s := { s with isAlarming := true }
    let p := setTimeoutOp 10 s
    { p.2 with alarmTimeoutId := some p.1 }

/-- `stopAlarm` from the source: clear `isAlarming`, then cancel and
null out `alarmTimeoutId` and `alarmIntervalId` when they are set. -/
def stopAlarm (s : AppState) : AppState :=
  let s := { s with isAlarming := false }
  let s :=
    match s.alarmTimeoutId with
    | some id => { clearTimeoutOp id s with alarmTimeoutId := none }
    | none => s
  match s.alarmIntervalId with
  | some id => { clearIntervalOp id s with alarmIntervalId := none }
  | none => s

/-- `handleWindowClick` from the source: any click in the window stops
the alarm when it is active, and does nothing otherwise. -/
def handleWindowClick (s : AppState) : AppState :=
  if s.isAlarming then stopAlarm s else s

/-- `pauseTimer` from the source: clear `isRunning`, then cancel and
null out the tick interval when it is set. -/
def pauseTimer (s : AppState) : AppState :=
  let s := { s with isRunning := false }
  match s.intervalId with
  | some id => { clearIntervalOp id s with intervalId := none }
  | none => s

/-- The body of the `setInterval` callback registered in `startTimer`:
decrement `remainingTime` when positive; when it has reached zero,
pause the timer (disarming the interval) and invoke `startAlarm`. -/
def tickBody (s : AppState) : AppState :=
  let s :=
    if 0 < s.remainingTime then { s with remainingTime := s.remainingTime - 1 }
    else s
  if s.remainingTime ≤ 0 then startAlarm (pauseTimer s) else s

/-- Delivery of one firing of the interval with handle `id`: the
callback (always the tick closure, the only `setInterval` callback in
the source) runs exactly when the handle is still armed; a cancelled
handle never fires. -/
def tickFire (id : Nat) (s : AppState) : AppState :=
  if id ∈ s.liveIntervals then tickBody s else s

/-- The tail of `startTimer` past the first-start block: return early
when `remainingTime <= 0`, otherwise set `isRunning` and arm a fresh
tick interval, storing its handle in `intervalId`. -/
def startTimerArm (s : AppState) : AppState :=
  if s.remainingTime ≤ 0 then s
  else
    let s := { s with isRunning := true }
    let p := setIntervalOp s
    { p.2 with intervalId := some p.1 }

/-- `startTimer` from the source: on first start compute the total
seconds from the three input fields (no clamping appears in the
source), return early when the total is not positive, otherwise
capture `originalTime = remainingTime = total`; then continue with
`startTimerArm`. -/
def startTimer (s : AppState) : AppState :=
  if s.hasStarted = false then
    let total := s.inputHours * 3600 + s.inputMinutes * 60 + s.inputSeconds
    if total ≤ 0 then s
    else
      startTimerArm
        { s with originalTime := total, remainingTime := total, hasStarted := true }
  else startTimerArm s

/-- `resetTimer` from the source: pause, then restore
`remainingTime := originalTime`. -/
def resetTimer (s : AppState) : AppState :=
  let s := pauseTimer s
  { s with remainingTime := s.originalTime }

/-- `deleteTimer` from the source: pause, then clear the session and
the input fields.  Note it does not touch the alarm state. -/
def deleteTimer (s : AppState) : AppState :=
  let s := pauseTimer s
  { s with hasStarted := false, remainingTime := 0, originalTime := 0,
           inputHours := 0, inputMinutes := 0, inputSeconds := 0 }

/-- The `canStart` computed property from the source. -/
def canStart (s : AppState) : Bool :=
  if s.hasStarted then decide (0 < s.remainingTime)
  else decide (0 < s.inputHours) || decide (0 < s.inputMinutes) ||
       decide (0 < s.inputSeconds)

/-- Passage of wall-clock time to instant `t`: the browser delivers any
due timeout.  Every timeout armed by this program carries the callback
`stopAlarm` (the alarm auto-dismiss is the only `setTimeout` call in
the source), so delivery removes the due entries and runs `stopAlarm`. -/
def advanceTo (t : Int) (s : AppState) : AppState :=
  let s := { s with now := t }
  if s.liveTimeouts.any (fun p => decide (p.2 ≤ t)) then
    stopAlarm { s with liveTimeouts := s.liveTimeouts.filter (fun p => decide (t < p.2)) }
  else s

/-! ## Derived quantities: the progress calculator

The source computes these with JavaScript floating point and
`Math.PI`; they are modelled exactly over `ℚ`, with the value of the
platform constant π taken as a parameter because it is irrational. -/

/-- `ringRadius = 140` from the source. -/
def ringRadius : ℚ := 140

/-- `ringCircumference = 2 * Math.PI * ringRadius`, parameterized over
the value of π. -/
def ringCircumferenceOf (piv : ℚ) : ℚ := 2 * piv * ringRadius

/-- The `progressPercent` computed property: `1` when the timer has
not started or the original duration is `0`, otherwise
`remainingTime / originalTime`. -/
def progressPercent (s : AppState) : ℚ :=
  if s.hasStarted = false ∨ s.originalTime = 0 then 1
  else (s.remainingTime : ℚ) / (s.originalTime : ℚ)

/-- The `progressOffset` computed property:
`ringCircumference * (1 - progressPercent)`. -/
def progressOffsetOf (piv : ℚ) (s : AppState) : ℚ :=
  ringCircumferenceOf piv * (1 - progressPercent s)

/-- `squareSize = 280` from the source. -/
def squareSize : ℚ := 280

/-- `squareStrokeWidth = 12` from the source. -/
def squareStrokeWidth : ℚ := 12

/-- `squarePerimeter = (squareSize - squareStrokeWidth) * 4`: the
perimeter of the inset square. -/
def squarePerimeter : ℚ := (squareSize - squareStrokeWidth) * 4

/-- The `squareProgressOffset` computed property:
`squarePerimeter * (1 - progressPercent)`. -/
def squareProgressOffset (s : AppState) : ℚ :=
  squarePerimeter * (1 - progressPercent s)

/-! ## Spec-side definitions (for comparison with the code)

These two definitions are written from the specification's words, not
from the source, so that claims comparing the code against them can be
stated. -/

/-- Modelled from the spec: `remaining = max(0, ceil(deadline − now))`,
the wall-clock-derived remaining time the spec prescribes for every
tick.  Instants are whole seconds here, and on integers
`ceil(deadline − now) = deadline − now`. -/
def specRemaining (deadline now : Int) : Int := max 0 (deadline - now)

/-- Modelled from the spec: clamp `v` into `[lo, hi]`. -/
def clampTo (lo hi v : Int) : Int := max lo (min hi v)

/-- Modelled from the spec: the total duration obtained after clamping
hours to `[0,99]`, minutes to `[0,59]` and seconds to `[0,59]`
independently (spec §6 "each independently clamped"). -/
def clampedTotal (h m sec : Int) : Int :=
  clampTo 0 99 h * 3600 + clampTo 0 59 m * 60 + clampTo 0 59 sec

/-! ## Invariants and event machinery -/

/-- The TimerSession data invariant of the spec:
`0 ≤ remainingSeconds ≤ originalSeconds`. -/
def TimerInv (s : AppState) : Prop :=
  0 ≤ s.remainingTime ∧ s.remainingTime ≤ s.originalTime

/-- The configuration of a session whose (single) tick interval is
`id`: either the session is running with a positive remainder and `id`
armed, or it has expired with everything disarmed.  The source never
assigns `alarmIntervalId`, so it is `null` throughout. -/
def TickRunInv (id : Nat) (s : AppState) : Prop :=
  s.alarmIntervalId = none ∧
  ((0 < s.remainingTime ∧ s.intervalId = some id ∧ s.liveIntervals = [id] ∧
      s.isRunning = true) ∨
   (s.remainingTime = 0 ∧ s.intervalId = none ∧ s.liveIntervals = [] ∧
      s.isRunning = false))

/-- Deliver a sequence of tick-callback firings for interval `id`, the
`k`-th one arriving at wall-clock instant `ts k` (delivery need not be
periodic: the instants are arbitrary). -/
def runTicksAt (id : Nat) (ts : List Int) (s : AppState) : AppState :=
  ts.foldl (fun s t => tickFire id (advanceTo t s)) s

/-- An event that can occur without any user interaction: a tick
callback firing, or wall-clock time advancing (delivering any due
timeout). -/
inductive TimeEv where
  | tickF (id : Nat)
  | adv (t : Int)

/-- Effect of one interaction-free event. -/
def timeStep (e : TimeEv) (s : AppState) : AppState :=
  match e with
  | TimeEv.tickF id => tickFire id s
  | TimeEv.adv t => advanceTo t s

/-- Run a sequence of interaction-free events. -/
def runTimeEvs (es : List TimeEv) (s : AppState) : AppState :=
  es.foldl (fun s e => timeStep e s) s

/-- One UI-mediated event.  Button presses run the button's own click
handler and then `handleWindowClick`, because the buttons live inside
the root `div` whose `@click` is `handleWindowClick` and click events
bubble; the Start button is only rendered (or enabled) while the timer
is not running. -/
inductive UIEv where
  | pressStart
  | pressPause
  | pressReset
  | pressDelete
  | bgClick
  | tickArrive (id : Nat)
  | timeAdvance (t : Int)
  | setInput (h m sec : Int)
  | setMode (fm : FlashMode)

/-- Effect of one UI-mediated event. -/
def uiStep (e : UIEv) (s : AppState) : AppState :=
  match e with
  | UIEv.pressStart => if s.isRunning then s else handleWindowClick (startTimer s)
  | UIEv.pressPause => if s.isRunning then handleWindowClick (pauseTimer s) else s
  | UIEv.pressReset => handleWindowClick (resetTimer s)
  | UIEv.pressDelete => handleWindowClick (deleteTimer s)
  | UIEv.bgClick => handleWindowClick s
  | UIEv.tickArrive id => tickFire id s
  | UIEv.timeAdvance t => advanceTo t s
  | UIEv.setInput h m sec =>
      { s with inputHours := h, inputMinutes := m, inputSeconds := sec }
  | UIEv.setMode fm => { s with flashingMode := fm }

/-- Timer-handle discipline: the armed interval handles are exactly the
stored tick handle, the armed timeouts are exactly the stored alarm
timeout, `alarmIntervalId` is never set, a non-running session has no
tick handle, an inactive alarm has no timeout, and no timeout is armed
while the session is running. -/
def HandleInv (s : AppState) : Prop :=
  s.liveIntervals = s.intervalId.toList ∧
  s.liveTimeouts.map Prod.fst = s.alarmTimeoutId.toList ∧
  s.alarmIntervalId = none ∧
  (s.isRunning = false → s.intervalId = none) ∧
  (s.isAlarming = false → s.alarmTimeoutId = none) ∧
  (s.isRunning = true → s.alarmTimeoutId = none)

/-! ## Characterization lemmas for the operations -/

lemma stopAlarm_eq (s : AppState) :
    stopAlarm s =
      { s with isAlarming := false,
               alarmTimeoutId := none,
               alarmIntervalId := none,
               liveTimeouts :=
                 match s.alarmTimeoutId with
                 | some id => s.liveTimeouts.filter (fun p => p.1 != id)
                 | none => s.liveTimeouts,
               liveIntervals :=
                 match s.alarmIntervalId with
                 | some id => s.liveIntervals.erase id
                 | none => s.liveIntervals } := by
  unfold stopAlarm clearTimeoutOp clearIntervalOp
  cases h1 : s.alarmTimeoutId <;> cases h2 : s.alarmIntervalId <;> simp [h1, h2]

lemma pauseTimer_eq (s : AppState) :
    pauseTimer s =
      { s with isRunning := false,
               intervalId := none,
               liveIntervals :=
                 match s.intervalId with
                 | some id => s.liveIntervals.erase id
                 | none => s.liveIntervals } := by
  unfold pauseTimer clearIntervalOp
  cases h : s.intervalId <;> simp [h]

lemma startAlarm_eq_nofl (s : AppState) (h : s.flashingMode = FlashMode.nofl) :
    startAlarm s = { s with startAlarmCalls := s.startAlarmCalls + 1 } := by
  unfold startAlarm
  simp [h]

lemma startAlarm_eq_arm (s : AppState) (h : s.flashingMode ≠ FlashMode.nofl) :
    startAlarm s =
      { s with startAlarmCalls := s.startAlarmCalls + 1,
               isAlarming := true,
               alarmTimeoutId := some s.nextId,
               liveTimeouts := (s.nextId, s.now + 10) :: s.liveTimeouts,
               nextId := s.nextId + 1 } := by
  unfold startAlarm setTimeoutOp
  simp [h]

lemma tickBody_pos (s : AppState) (h : 1 < s.remainingTime) :
    tickBody s = { s with remainingTime := s.remainingTime - 1 } := by
  unfold tickBody
  have h0 : 0 < s.remainingTime := by omega
  simp only [h0, if_true]
  have : ¬ (s.remainingTime - 1 ≤ 0) := by omega
  simp [this]

lemma tickBody_one (s : AppState) (h : s.remainingTime = 1) :
    tickBody s = startAlarm (pauseTimer { s with remainingTime := 0 }) := by
  unfold tickBody
  simp [h]

lemma tickBody_nonpos (s : AppState) (h : s.remainingTime ≤ 0) :
    tickBody s = startAlarm (pauseTimer s) := by
  unfold tickBody
  have h0 : ¬ (0 < s.remainingTime) := by omega
  simp [h0, h]

lemma startTimer_first (s : AppState) (hhs : s.hasStarted = false)
    (hpos : 0 < s.inputHours * 3600 + s.inputMinutes * 60 + s.inputSeconds) :
    startTimer s =
      { s with originalTime := s.inputHours * 3600 + s.inputMinutes * 60 + s.inputSeconds,
               remainingTime := s.inputHours * 3600 + s.inputMinutes * 60 + s.inputSeconds,
               hasStarted := true,
               isRunning := true,
               intervalId := some s.nextId,
               liveIntervals := s.nextId :: s.liveIntervals,
               nextId := s.nextId + 1 } := by
  unfold startTimer startTimerArm setIntervalOp
  have h1 : ¬ (s.inputHours * 3600 + s.inputMinutes * 60 + s.inputSeconds ≤ 0) := by
    omega
  simp [hhs, h1]

lemma startTimer_noop_unstarted (s : AppState) (hhs : s.hasStarted = false)
    (h : s.inputHours * 3600 + s.inputMinutes * 60 + s.inputSeconds ≤ 0) :
    startTimer s = s := by
  unfold startTimer
  simp [hhs, h]

lemma startTimer_noop_expired (s : AppState) (hhs : s.hasStarted = true)
    (h : s.remainingTime ≤ 0) :
    startTimer s = s := by
  unfold startTimer startTimerArm
  simp [hhs, h]

lemma startTimer_resume (s : AppState) (hhs : s.hasStarted = true)
    (h : 0 < s.remainingTime) :
    startTimer s =
      { s with isRunning := true,
               intervalId := some s.nextId,
               liveIntervals := s.nextId :: s.liveIntervals,
               nextId := s.nextId + 1 } := by
  unfold startTimer startTimerArm setIntervalOp
  have h1 : ¬ (s.remainingTime ≤ 0) := by omega
  simp [hhs, h1]

lemma pauseTimer_noop (s : AppState) (hrn : s.isRunning = false)
    (hid : s.intervalId = none) :
    pauseTimer s = s := by
  rw [pauseTimer_eq]
  cases s
  simp_all

lemma pauseTimer_idem (s : AppState) :
    pauseTimer (pauseTimer s) = pauseTimer s := by
  have h1 : (pauseTimer s).isRunning = false := by rw [pauseTimer_eq]
  have h2 : (pauseTimer s).intervalId = none := by rw [pauseTimer_eq]
  exact pauseTimer_noop _ h1 h2

lemma stopAlarm_noop (s : AppState) (h1 : s.isAlarming = false)
    (h2 : s.alarmTimeoutId = none) (h3 : s.alarmIntervalId = none) :
    stopAlarm s = s := by
  rw [stopAlarm_eq]
  cases s
  simp_all

lemma stopAlarm_idem (s : AppState) :
    stopAlarm (stopAlarm s) = stopAlarm s := by
  have h1 : (stopAlarm s).isAlarming = false := by rw [stopAlarm_eq]
  have h2 : (stopAlarm s).alarmTimeoutId = none := by rw [stopAlarm_eq]
  have h3 : (stopAlarm s).alarmIntervalId = none := by rw [stopAlarm_eq]
  exact stopAlarm_noop _ h1 h2 h3

lemma handleWindowClick_noop (s : AppState) (h : s.isAlarming = false) :
    handleWindowClick s = s := by
  simp [handleWindowClick, h]

/-! ## Frame lemmas -/

lemma advanceTo_eq (t : Int) (s : AppState) :
    advanceTo t s =
      if s.liveTimeouts.any (fun p => decide (p.2 ≤ t)) then
        stopAlarm { s with now := t,
                           liveTimeouts := s.liveTimeouts.filter (fun p => decide (t < p.2)) }
      else { s with now := t } := rfl

lemma advanceTo_frame (t : Int) (s : AppState) (hAI : s.alarmIntervalId = none) :
    (advanceTo t s).remainingTime = s.remainingTime ∧
    (advanceTo t s).originalTime = s.originalTime ∧
    (advanceTo t s).hasStarted = s.hasStarted ∧
    (advanceTo t s).isRunning = s.isRunning ∧
    (advanceTo t s).intervalId = s.intervalId ∧
    (advanceTo t s).liveIntervals = s.liveIntervals ∧
    (advanceTo t s).alarmIntervalId = none ∧
    (advanceTo t s).startAlarmCalls = s.startAlarmCalls := by
  by_cases hc : (s.liveTimeouts.any (fun p => decide (p.2 ≤ t))) = true
  · simp [advanceTo_eq, hc, stopAlarm_eq, hAI]
  · simp [advanceTo_eq, hc, hAI]

lemma startAlarm_frame (s : AppState) :
    (startAlarm s).remainingTime = s.remainingTime ∧
    (startAlarm s).originalTime = s.originalTime ∧
    (startAlarm s).hasStarted = s.hasStarted ∧
    (startAlarm s).isRunning = s.isRunning ∧
    (startAlarm s).intervalId = s.intervalId ∧
    (startAlarm s).liveIntervals = s.liveIntervals ∧
    (startAlarm s).alarmIntervalId = s.alarmIntervalId ∧
    (startAlarm s).startAlarmCalls = s.startAlarmCalls + 1 := by
  by_cases h : s.flashingMode = FlashMode.nofl
  · simp [startAlarm_eq_nofl s h]
  · simp [startAlarm_eq_arm s h]

lemma runTicksAt_nil (id : Nat) (s : AppState) : runTicksAt id [] s = s := rfl

lemma runTicksAt_cons (id : Nat) (t : Int) (ts : List Int) (s : AppState) :
    runTicksAt id (t :: ts) s = runTicksAt id ts (tickFire id (advanceTo t s)) := rfl

lemma tick_step_spec (id : Nat) (t : Int) (s : AppState) (hInv : TickRunInv id s) :
    (tickFire id (advanceTo t s)).remainingTime = max 0 (s.remainingTime - 1) ∧
    TickRunInv id (tickFire id (advanceTo t s)) ∧
    (tickFire id (advanceTo t s)).hasStarted = s.hasStarted ∧
    (tickFire id (advanceTo t s)).originalTime = s.originalTime ∧
    (tickFire id (advanceTo t s)).startAlarmCalls =
      s.startAlarmCalls + (if s.remainingTime = 1 then 1 else 0) := by
  obtain ⟨hAI, hbr⟩ := hInv
  obtain ⟨f1, f2, f3, f4, f5, f6, f7, f8⟩ := advanceTo_frame t s hAI
  rcases hbr with ⟨hr, hid, hl, hrn⟩ | ⟨hr, hid, hl, hrn⟩
  · have hmem : id ∈ (advanceTo t s).liveIntervals := by
      rw [f6, hl]; exact List.mem_singleton.mpr rfl
    have htf : tickFire id (advanceTo t s) = tickBody (advanceTo t s) := by
      simp [tickFire, hmem]
    by_cases h1 : 1 < s.remainingTime
    · rw [htf, tickBody_pos _ (by rw [f1]; exact h1)]
      refine ⟨?_, ⟨?_, Or.inl ⟨?_, ?_, ?_, ?_⟩⟩, ?_, ?_, ?_⟩
      · simp [f1]; omega
      · simpa using f7
      · simp [f1]; omega
      · simpa [hid] using f5
      · simpa [hl] using f6
      · simpa [hrn] using f4
      · simpa using f3
      · simpa using f2
      · have : ¬ s.remainingTime = 1 := by omega
        simp [this, f8]
    · have hr1 : s.remainingTime = 1 := by omega
      have key : tickFire id (advanceTo t s) =
          startAlarm (pauseTimer { advanceTo t s with remainingTime := 0 }) := by
        rw [htf, tickBody_one _ (by rw [f1]; exact hr1)]
      have p1 : (pauseTimer { advanceTo t s with remainingTime := 0 }).remainingTime
          = 0 := by rw [pauseTimer_eq]
      have p2 : (pauseTimer { advanceTo t s with remainingTime := 0 }).originalTime
          = s.originalTime := by rw [pauseTimer_eq]; simpa using f2
      have p3 : (pauseTimer { advanceTo t s with remainingTime := 0 }).hasStarted
          = s.hasStarted := by rw [pauseTimer_eq]; simpa using f3
      have p4 : (pauseTimer { advanceTo t s with remainingTime := 0 }).isRunning
          = false := by rw [pauseTimer_eq]
      have p5 : (pauseTimer { advanceTo t s with remainingTime := 0 }).intervalId
          = none := by rw [pauseTimer_eq]
      have p6 : (pauseTimer { advanceTo t s with remainingTime := 0 }).liveIntervals
          = [] := by
        rw [pauseTimer_eq]
        have hi : (advanceTo t s).intervalId = some id := by rw [f5, hid]
        have hli : (advanceTo t s).liveIntervals = [id] := by rw [f6, hl]
        simp [hi, hli]
      have p7 : (pauseTimer { advanceTo t s with remainingTime := 0 }).alarmIntervalId
          = none := by rw [pauseTimer_eq]; simpa using f7
      have p8 : (pauseTimer { advanceTo t s with remainingTime := 0 }).startAlarmCalls
          = s.startAlarmCalls := by rw [pauseTimer_eq]; simpa using f8
      obtain ⟨g1, g2, g3, g4, g5, g6, g7, g8⟩ :=
        startAlarm_frame (pauseTimer { advanceTo t s with remainingTime := 0 })
      rw [key]
      refine ⟨?_, ⟨?_, Or.inr ⟨?_, ?_, ?_, ?_⟩⟩, ?_, ?_, ?_⟩
      · rw [g1, p1, hr1]; omega
      · rw [g7, p7]
      · rw [g1, p1]
      · rw [g5, p5]
      · rw [g6, p6]
      · rw [g4, p4]
      · rw [g3, p3]
      · rw [g2, p2]
      · rw [g8, p8, hr1]; simp
  · have hmem : id ∉ (advanceTo t s).liveIntervals := by
      rw [f6, hl]; simp
    have htf : tickFire id (advanceTo t s) = advanceTo t s := by
      simp [tickFire, hmem]
    rw [htf]
    refine ⟨?_, ⟨f7, Or.inr ?_⟩, f3, f2, ?_⟩
    · rw [f1, hr]; simp
    · exact ⟨by rw [f1, hr], by rw [f5, hid], by rw [f6, hl], by rw [f4, hrn]⟩
    · have h1 : ¬ s.remainingTime = 1 := by omega
      simp [h1, f8]

lemma timeStep_frozen (e : TimeEv) (s : AppState) (hL : s.liveIntervals = [])
    (hAI : s.alarmIntervalId = none) :
    (timeStep e s).remainingTime = s.remainingTime ∧
    (timeStep e s).liveIntervals = [] ∧
    (timeStep e s).alarmIntervalId = none := by
  cases e with
  | tickF id => simp [timeStep, tickFire, hL, hAI]
  | adv t =>
    obtain ⟨f1, _, _, _, _, f6, f7, _⟩ := advanceTo_frame t s hAI
    exact ⟨f1, by rw [timeStep, f6, hL], f7⟩

lemma runTimeEvs_frozen (es : List TimeEv) (s : AppState)
    (hL : s.liveIntervals = []) (hAI : s.alarmIntervalId = none) :
    (runTimeEvs es s).remainingTime = s.remainingTime ∧
    (runTimeEvs es s).liveIntervals = [] ∧
    (runTimeEvs es s).alarmIntervalId = none := by
  induction es generalizing s with
  | nil => exact ⟨rfl, hL, hAI⟩
  | cons e es ih =>
    obtain ⟨f1, f2, f3⟩ := timeStep_frozen e s hL hAI
    obtain ⟨r1, r2, r3⟩ := ih (timeStep e s) f2 f3
    exact ⟨by rw [show runTimeEvs (e :: es) s = runTimeEvs es (timeStep e s) from rfl,
                  r1, f1],
           by rw [show runTimeEvs (e :: es) s = runTimeEvs es (timeStep e s) from rfl,
                  r2],
           by rw [show runTimeEvs (e :: es) s = runTimeEvs es (timeStep e s) from rfl,
                  r3]⟩

lemma runTicksAt_spec (id : Nat) (ts : List Int) (s : AppState)
    (hInv : TickRunInv id s) :
    (runTicksAt id ts s).remainingTime = max 0 (s.remainingTime - ts.length) ∧
    TickRunInv id (runTicksAt id ts s) ∧
    (runTicksAt id ts s).hasStarted = s.hasStarted ∧
    (runTicksAt id ts s).originalTime = s.originalTime ∧
    (runTicksAt id ts s).startAlarmCalls = s.startAlarmCalls +
      (if 0 < s.remainingTime ∧ s.remainingTime ≤ (ts.length : Int) then 1 else 0) := by
  induction ts generalizing s with
  | nil =>
    obtain ⟨hAI, hbr⟩ := hInv
    have h0 : 0 ≤ s.remainingTime := by
      rcases hbr with ⟨h, _⟩ | ⟨h, _⟩ <;> omega
    refine ⟨?_, ⟨hAI, hbr⟩, rfl, rfl, ?_⟩
    · rw [runTicksAt_nil]; simp; omega
    · rw [runTicksAt_nil]; simp
  | cons t ts ih =>
    have h0 : 0 ≤ s.remainingTime := by
      rcases hInv.2 with ⟨h, _⟩ | ⟨h, _⟩ <;> omega
    obtain ⟨e1, e2, e3, e4, e5⟩ := tick_step_spec id t s hInv
    obtain ⟨r1, r2, r3, r4, r5⟩ := ih (tickFire id (advanceTo t s)) e2
    rw [runTicksAt_cons]
    refine ⟨?_, r2, ?_, ?_, ?_⟩
    · rw [r1, e1]; simp only [List.length_cons]; push_cast; omega
    · rw [r3, e3]
    · rw [r4, e4]
    · rw [r5, e5, e1]
      simp only [List.length_cons]
      push_cast
      split_ifs <;> omega

lemma resetTimer_eq (s : AppState) :
    resetTimer s = { pauseTimer s with remainingTime := s.originalTime } := by
  have h : (pauseTimer s).originalTime = s.originalTime := by rw [pauseTimer_eq]
  simp only [resetTimer, h]

lemma deleteTimer_eq (s : AppState) :
    deleteTimer s =
      { pauseTimer s with hasStarted := false, remainingTime := 0,
                          originalTime := 0, inputHours := 0, inputMinutes := 0,
                          inputSeconds := 0 } := by
  simp only [deleteTimer]

lemma tickBody_inv (s : AppState) (hInv : TimerInv s) :
    TimerInv (tickBody s) ∧ (tickBody s).originalTime = s.originalTime := by
  obtain ⟨h0, h1⟩ := hInv
  by_cases hgt : 1 < s.remainingTime
  · rw [tickBody_pos s hgt]
    exact ⟨⟨by simp; omega, by simp; omega⟩, rfl⟩
  · by_cases he : s.remainingTime = 1
    · rw [tickBody_one s he]
      obtain ⟨g1, g2, _, _, _, _, _, _⟩ :=
        startAlarm_frame (pauseTimer { s with remainingTime := 0 })
      have p1 : (pauseTimer { s with remainingTime := 0 }).remainingTime = 0 := by
        rw [pauseTimer_eq]
      have p2 : (pauseTimer { s with remainingTime := 0 }).originalTime
          = s.originalTime := by rw [pauseTimer_eq]
      exact ⟨⟨by rw [g1, p1], by rw [g1, p1, g2, p2]; omega⟩, by rw [g2, p2]⟩
    · have hle : s.remainingTime ≤ 0 := by omega
      rw [tickBody_nonpos s hle]
      obtain ⟨g1, g2, _, _, _, _, _, _⟩ := startAlarm_frame (pauseTimer s)
      have p1 : (pauseTimer s).remainingTime = s.remainingTime := by
        rw [pauseTimer_eq]
      have p2 : (pauseTimer s).originalTime = s.originalTime := by
        rw [pauseTimer_eq]
      exact ⟨⟨by rw [g1, p1]; omega, by rw [g1, p1, g2, p2]; omega⟩, by rw [g2, p2]⟩

lemma advanceTo_single_timeout (x : AppState) (i : Nat) (ft : Int)
    (hx : x.liveTimeouts = [(i, ft)]) :
    (∀ u, u < ft → advanceTo u x = { x with now := u }) ∧
    (∀ u, ft ≤ u →
      advanceTo u x = stopAlarm { x with now := u, liveTimeouts := [] }) := by
  constructor
  · intro u hu
    rw [advanceTo_eq, if_neg]
    rw [hx]
    simp
    omega
  · intro u hu
    have hfil : x.liveTimeouts.filter (fun p => decide (u < p.2)) = [] := by
      rw [hx]
      simp
      omega
    rw [advanceTo_eq,
        if_pos (show (x.liveTimeouts.any (fun p => decide (p.2 ≤ u))) = true by
          rw [hx]; simp [hu]),
        hfil]

lemma map_fst_eq_singleton {l : List (Nat × Int)} {a : Nat}
    (h : l.map Prod.fst = [a]) : ∃ b, l = [(a, b)] := by
  cases l with
  | nil => simp at h
  | cons p t =>
    cases t with
    | nil =>
      simp at h
      exact ⟨p.2, by rw [← h]⟩
    | cons q t2 => simp at h

lemma handleInv_timeouts_fst (s : AppState) (i2 : s.liveTimeouts.map Prod.fst
    = s.alarmTimeoutId.toList) :
    ∀ p ∈ s.liveTimeouts, some p.1 = s.alarmTimeoutId := by
  intro p hp
  cases hT : s.alarmTimeoutId with
  | none =>
    rw [hT] at i2
    have : s.liveTimeouts = [] := by
      simpa using congrArg List.length i2
    rw [this] at hp
    cases hp
  | some id =>
    rw [hT] at i2
    obtain ⟨b, hb⟩ := map_fst_eq_singleton i2
    rw [hb] at hp
    simp at hp
    rw [hp]

lemma stopAlarm_handle (s : AppState)
    (i1 : s.liveIntervals = s.intervalId.toList)
    (i3 : s.alarmIntervalId = none)
    (i4 : s.isRunning = false → s.intervalId = none)
    (h2 : ∀ p ∈ s.liveTimeouts, some p.1 = s.alarmTimeoutId) :
    HandleInv (stopAlarm s) ∧
    (stopAlarm s).liveTimeouts = [] ∧
    (stopAlarm s).alarmTimeoutId = none ∧
    (stopAlarm s).isAlarming = false ∧
    (stopAlarm s).liveIntervals = s.liveIntervals ∧
    (stopAlarm s).intervalId = s.intervalId ∧
    (stopAlarm s).isRunning = s.isRunning ∧
    (stopAlarm s).remainingTime = s.remainingTime ∧
    (stopAlarm s).hasStarted = s.hasStarted := by
  have hM1 : (match s.alarmTimeoutId with
      | some id => s.liveTimeouts.filter (fun p => p.1 != id)
      | none => s.liveTimeouts) = ([] : List (Nat × Int)) := by
    cases hT : s.alarmTimeoutId with
    | none =>
      cases hlt : s.liveTimeouts with
      | nil => rfl
      | cons q t =>
        have := h2 q (by rw [hlt]; exact List.mem_cons_self q t)
        rw [hT] at this
        cases this
    | some id =>
      simp only []
      rw [List.filter_eq_nil]
      intro a ha
      have := h2 a ha
      rw [hT] at this
      have ha1 : a.1 = id := Option.some.inj this
      simp [ha1]
  rw [stopAlarm_eq]
  rw [i3]
  refine ⟨⟨?_, ?_, rfl, ?_, fun _ => rfl, fun _ => rfl⟩, ?_, rfl, rfl, rfl, rfl,
          rfl, rfl, rfl⟩
  · simpa using i1
  · simp [hM1]
  · simpa using i4
  · simpa using hM1

lemma handleInv_len_bounds (s : AppState) (hInv : HandleInv s) :
    s.liveIntervals.length ≤ 1 ∧ s.liveTimeouts.length ≤ 1 := by
  obtain ⟨i1, i2, _, _, _, _⟩ := hInv
  constructor
  · rw [i1]
    cases s.intervalId <;> simp
  · have h : s.liveTimeouts.length = s.alarmTimeoutId.toList.length := by
      rw [← i2, List.length_map]
    rw [h]
    cases s.alarmTimeoutId <;> simp

lemma pauseTimer_handle (s : AppState) (hInv : HandleInv s) :
    HandleInv (pauseTimer s) ∧
    (pauseTimer s).liveTimeouts = s.liveTimeouts ∧
    (pauseTimer s).alarmTimeoutId = s.alarmTimeoutId ∧
    (pauseTimer s).isAlarming = s.isAlarming ∧
    (pauseTimer s).liveIntervals = [] ∧
    (pauseTimer s).intervalId = none ∧
    (pauseTimer s).isRunning = false := by
  obtain ⟨i1, i2, i3, i4, i5, i6⟩ := hInv
  have hM : (match s.intervalId with
      | some id => s.liveIntervals.erase id
      | none => s.liveIntervals) = ([] : List Nat) := by
    cases hI : s.intervalId with
    | none => rw [i1, hI]; rfl
    | some id => simp [i1, hI]
  rw [pauseTimer_eq]
  refine ⟨⟨?_, i2, i3, fun _ => rfl, ?_, ?_⟩, rfl, rfl, rfl, ?_, rfl, rfl⟩
  · simpa using hM
  · simpa using i5
  · intro h
    cases h
  · simpa using hM

lemma handleWindowClick_handle (s : AppState) (hInv : HandleInv s) :
    HandleInv (handleWindowClick s) ∧
    (handleWindowClick s).alarmTimeoutId = none ∧
    (handleWindowClick s).liveTimeouts.length ≤ 1 ∧
    (handleWindowClick s).isRunning = s.isRunning ∧
    (handleWindowClick s).intervalId = s.intervalId ∧
    (handleWindowClick s).liveIntervals = s.liveIntervals := by
  obtain ⟨i1, i2, i3, i4, i5, i6⟩ := hInv
  cases hA : s.isAlarming with
  | false =>
    rw [handleWindowClick_noop s hA]
    exact ⟨⟨i1, i2, i3, i4, i5, i6⟩, i5 hA,
           (handleInv_len_bounds s ⟨i1, i2, i3, i4, i5, i6⟩).2, rfl, rfl, rfl⟩
  | true =>
    have hcl : handleWindowClick s = stopAlarm s := by
      rw [handleWindowClick, if_pos hA]
    obtain ⟨g0, g1, g2, _, g4, g5, g6, _, _⟩ :=
      stopAlarm_handle s i1 i3 i4 (handleInv_timeouts_fst s i2)
    rw [hcl]
    exact ⟨g0, g2, by rw [g1]; simp, g6, g5, g4⟩

lemma startTimer_handle (s : AppState) (hrn : s.isRunning = false)
    (i1 : s.liveIntervals = s.intervalId.toList)
    (i4 : s.isRunning = false → s.intervalId = none) :
    (startTimer s).liveIntervals = (startTimer s).intervalId.toList ∧
    ((startTimer s).isRunning = false → (startTimer s).intervalId = none) ∧
    (startTimer s).liveTimeouts = s.liveTimeouts ∧
    (startTimer s).alarmTimeoutId = s.alarmTimeoutId ∧
    (startTimer s).alarmIntervalId = s.alarmIntervalId ∧
    (startTimer s).isAlarming = s.isAlarming := by
  have hid : s.intervalId = none := i4 hrn
  have hlive : s.liveIntervals = [] := by rw [i1, hid]; rfl
  cases hhs : s.hasStarted with
  | false =>
    by_cases ht : s.inputHours * 3600 + s.inputMinutes * 60 + s.inputSeconds ≤ 0
    · rw [startTimer_noop_unstarted s hhs ht]
      exact ⟨i1, i4, rfl, rfl, rfl, rfl⟩
    · rw [startTimer_first s hhs (by omega)]
      refine ⟨?_, ?_, rfl, rfl, rfl, rfl⟩
      · simp [hlive]
      · intro h
        simp at h
  | true =>
    by_cases hr : s.remainingTime ≤ 0
    · rw [startTimer_noop_expired s hhs hr]
      exact ⟨i1, i4, rfl, rfl, rfl, rfl⟩
    · rw [startTimer_resume s hhs (by omega)]
      refine ⟨?_, ?_, rfl, rfl, rfl, rfl⟩
      · simp [hlive]
      · intro h
        simp at h

lemma expiry_handle (id : Nat) (x : AppState)
    (hid : x.intervalId = some id)
    (hlive : x.liveIntervals = [id])
    (i2 : x.liveTimeouts.map Prod.fst = x.alarmTimeoutId.toList)
    (i3 : x.alarmIntervalId = none)
    (hT : x.alarmTimeoutId = none) :
    HandleInv (startAlarm (pauseTimer x)) := by
  have hLT : x.liveTimeouts = [] := by
    rw [hT] at i2
    simpa using congrArg List.length i2
  have p4 : (pauseTimer x).isRunning = false := by rw [pauseTimer_eq]
  have p5 : (pauseTimer x).intervalId = none := by rw [pauseTimer_eq]
  have p6 : (pauseTimer x).liveIntervals = [] := by
    rw [pauseTimer_eq]
    simp [hid, hlive]
  have p2 : (pauseTimer x).liveTimeouts = [] := by rw [pauseTimer_eq]; exact hLT
  have pT : (pauseTimer x).alarmTimeoutId = none := by rw [pauseTimer_eq]; exact hT
  have p3 : (pauseTimer x).alarmIntervalId = none := by rw [pauseTimer_eq]; exact i3
  by_cases hmode : (pauseTimer x).flashingMode = FlashMode.nofl
  · rw [startAlarm_eq_nofl _ hmode]
    exact ⟨by simp [p6, p5], by simp [p2, pT], by simpa using p3,
           fun _ => by simpa using p5, fun _ => by simpa using pT,
           fun _ => by simpa using pT⟩
  · rw [startAlarm_eq_arm _ hmode]
    refine ⟨by simp [p6, p5], by simp [p2], by simpa using p3,
            fun _ => by simpa using p5, ?_, ?_⟩
    · intro h
      simp at h
    · intro h
      rw [show ({ pauseTimer x with
            startAlarmCalls := (pauseTimer x).startAlarmCalls + 1,
            isAlarming := true,
            alarmTimeoutId := some (pauseTimer x).nextId,
            liveTimeouts := ((pauseTimer x).nextId, (pauseTimer x).now + 10)
              :: (pauseTimer x).liveTimeouts,
            nextId := (pauseTimer x).nextId + 1 } : AppState).isRunning
          = (pauseTimer x).isRunning from rfl, p4] at h
      cases h

lemma tickFire_handle (id : Nat) (s : AppState) (hInv : HandleInv s) :
    HandleInv (tickFire id s) := by
  obtain ⟨i1, i2, i3, i4, i5, i6⟩ := hInv
  by_cases hm : id ∈ s.liveIntervals
  · have hid : s.intervalId = some id := by
      cases hI : s.intervalId with
      | none => rw [i1, hI] at hm; cases hm
      | some j =>
        rw [i1, hI] at hm
        simp at hm
        rw [hm]
    have hlive : s.liveIntervals = [id] := by rw [i1, hid]; rfl
    have hrun : s.isRunning = true := by
      cases hR : s.isRunning with
      | true => rfl
      | false => rw [i4 hR] at hid; cases hid
    have hT : s.alarmTimeoutId = none := i6 hrun
    rw [tickFire, if_pos hm]
    by_cases hgt : 1 < s.remainingTime
    · rw [tickBody_pos s hgt]
      exact ⟨i1, i2, i3, i4, i5, i6⟩
    · by_cases he : s.remainingTime = 1
      · rw [tickBody_one s he]
        exact expiry_handle id { s with remainingTime := 0 } hid hlive i2 i3 hT
      · rw [tickBody_nonpos s (by omega)]
        exact expiry_handle id s hid hlive i2 i3 hT
  · rw [tickFire, if_neg hm]
    exact ⟨i1, i2, i3, i4, i5, i6⟩

lemma advanceTo_handle (t : Int) (s : AppState) (hInv : HandleInv s) :
    HandleInv (advanceTo t s) := by
  obtain ⟨i1, i2, i3, i4, i5, i6⟩ := hInv
  cases hT : s.alarmTimeoutId with
  | none =>
    have hLT : s.liveTimeouts = [] := by
      rw [hT] at i2
      simpa using congrArg List.length i2
    rw [advanceTo_eq, if_neg (by rw [hLT]; simp)]
    exact ⟨i1, i2, i3, i4, i5, i6⟩
  | some id =>
    obtain ⟨ft, hl⟩ := map_fst_eq_singleton (by rw [hT] at i2; exact i2)
    obtain ⟨hbefore, hafter⟩ := advanceTo_single_timeout s id ft hl
    by_cases hdue : ft ≤ t
    · rw [hafter t hdue]
      refine (stopAlarm_handle { s with now := t, liveTimeouts := [] }
        ?_ ?_ ?_ ?_).1
      · exact i1
      · exact i3
      · exact i4
      · intro p hp
        simp at hp
    · rw [hbefore t (by omega)]
      exact ⟨i1, i2, i3, i4, i5, i6⟩

/-! ## Claim theorems -/

/-- C3: every engine operation — `startTimer`, a tick firing,
`pauseTimer`, `resetTimer`, `deleteTimer` — preserves the session
invariant `0 ≤ remainingTime ≤ originalTime`; and once a session has
started (`hasStarted = true`), `originalTime` is left unchanged by
`startTimer`, ticks, `pauseTimer` and `resetTimer`, while
`deleteTimer` clears it to `0`. -/
theorem operations_preserve_timer_invariant (s : AppState) (id : Nat)
    (hInv : TimerInv s) :
    TimerInv (startTimer s) ∧
    TimerInv (tickFire id s) ∧
    TimerInv (pauseTimer s) ∧
    TimerInv (resetTimer s) ∧
    TimerInv (deleteTimer s) ∧
    (s.hasStarted = true → (startTimer s).originalTime = s.originalTime) ∧
    (tickFire id s).originalTime = s.originalTime ∧
    (pauseTimer s).originalTime = s.originalTime ∧
    (resetTimer s).originalTime = s.originalTime ∧
    (deleteTimer s).originalTime = 0 := by
  obtain ⟨h0, h1⟩ := hInv
  have hpause : TimerInv (pauseTimer s) ∧ (pauseTimer s).originalTime
      = s.originalTime := by
    rw [pauseTimer_eq]; exact ⟨⟨h0, h1⟩, rfl⟩
  have hreset : TimerInv (resetTimer s) ∧ (resetTimer s).originalTime
      = s.originalTime := by
    rw [resetTimer_eq]
    have p2 : (pauseTimer s).originalTime = s.originalTime := by rw [pauseTimer_eq]
    exact ⟨⟨by simp; omega, by simp [p2]⟩, by simp [p2]⟩
  have hdel : TimerInv (deleteTimer s) ∧ (deleteTimer s).originalTime = 0 := by
    rw [deleteTimer_eq]
    refine ⟨⟨?_, ?_⟩, ?_⟩ <;> simp
  have htick : TimerInv (tickFire id s) ∧ (tickFire id s).originalTime
      = s.originalTime := by
    unfold tickFire
    by_cases hm : id ∈ s.liveIntervals
    · rw [if_pos hm]; exact tickBody_inv s ⟨h0, h1⟩
    · rw [if_neg hm]; exact ⟨⟨h0, h1⟩, rfl⟩
  have hstart : TimerInv (startTimer s) ∧
      (s.hasStarted = true → (startTimer s).originalTime = s.originalTime) := by
    cases hhs : s.hasStarted with
    | false =>
      by_cases ht : s.inputHours * 3600 + s.inputMinutes * 60 + s.inputSeconds ≤ 0
      · rw [startTimer_noop_unstarted s hhs ht]
        exact ⟨⟨h0, h1⟩, fun hc => by simp [hhs] at hc⟩
      · rw [startTimer_first s hhs (by omega)]
        exact ⟨⟨by simp; omega, by simp⟩, fun hc => by simp [hhs] at hc⟩
    | true =>
      by_cases hr : s.remainingTime ≤ 0
      · rw [startTimer_noop_expired s hhs hr]; exact ⟨⟨h0, h1⟩, fun _ => rfl⟩
      · rw [startTimer_resume s hhs (by omega)]
        exact ⟨⟨by simp; omega, by simp; omega⟩, fun _ => by simp⟩
  exact ⟨hstart.1, htick.1, hpause.1, hreset.1, hdel.1, hstart.2, htick.2,
         hpause.2, hreset.2, hdel.2⟩

/-- C3 witness: a started session with `remainingTime = 4` and
`originalTime = 10` satisfies the invariant, and the conclusion holds
there. -/
theorem operations_preserve_timer_invariant_witness :
    TimerInv { initState with originalTime := 10, remainingTime := 4, hasStarted := true } ∧
    (TimerInv (startTimer { initState with originalTime := 10, remainingTime := 4, hasStarted := true }) ∧
     TimerInv (tickFire 0 { initState with originalTime := 10, remainingTime := 4, hasStarted := true }) ∧
     TimerInv (pauseTimer { initState with originalTime := 10, remainingTime := 4, hasStarted := true }) ∧
     TimerInv (resetTimer { initState with originalTime := 10, remainingTime := 4, hasStarted := true }) ∧
     TimerInv (deleteTimer { initState with originalTime := 10, remainingTime := 4, hasStarted := true }) ∧
     (({ initState with originalTime := 10, remainingTime := 4, hasStarted := true } : AppState).hasStarted = true →
       (startTimer { initState with originalTime := 10, remainingTime := 4, hasStarted := true }).originalTime =
         ({ initState with originalTime := 10, remainingTime := 4, hasStarted := true } : AppState).originalTime) ∧
     (tickFire 0 { initState with originalTime := 10, remainingTime := 4, hasStarted := true }).originalTime =
       ({ initState with originalTime := 10, remainingTime := 4, hasStarted := true } : AppState).originalTime ∧
     (pauseTimer { initState with originalTime := 10, remainingTime := 4, hasStarted := true }).originalTime =
       ({ initState with originalTime := 10, remainingTime := 4, hasStarted := true } : AppState).originalTime ∧
     (resetTimer { initState with originalTime := 10, remainingTime := 4, hasStarted := true }).originalTime =
       ({ initState with originalTime := 10, remainingTime := 4, hasStarted := true } : AppState).originalTime ∧
     (deleteTimer { initState with originalTime := 10, remainingTime := 4, hasStarted := true }).originalTime = 0) :=
  ⟨⟨by decide, by decide⟩,
   operations_preserve_timer_invariant _ 0 ⟨by decide, by decide⟩⟩


/-- C2: calling `startTimer` from an un-started, cleanly-initialized
state whose input fields total `D > 0` seconds and then delivering
exactly `D` tick firings (at arbitrary instants `ts`) yields an
expired session: `remainingTime = 0`, `isRunning = false`, the tick
source disarmed (`intervalId = none` and no armed interval), the
session still present (`hasStarted = true`), and the registered expiry
callback `startAlarm` invoked exactly once. -/
theorem startTimer_then_D_ticks_expires (s0 : AppState) (ts : List Int)
    (hhs : s0.hasStarted = false)
    (hAI : s0.alarmIntervalId = none)
    (hL : s0.liveIntervals = [])
    (hD : 0 < s0.inputHours * 3600 + s0.inputMinutes * 60 + s0.inputSeconds)
    (hlen : (ts.length : Int) =
      s0.inputHours * 3600 + s0.inputMinutes * 60 + s0.inputSeconds)
    (hcalls : s0.startAlarmCalls = 0) :
    (runTicksAt s0.nextId ts (startTimer s0)).remainingTime = 0 ∧
    (runTicksAt s0.nextId ts (startTimer s0)).isRunning = false ∧
    (runTicksAt s0.nextId ts (startTimer s0)).intervalId = none ∧
    (runTicksAt s0.nextId ts (startTimer s0)).liveIntervals = [] ∧
    (runTicksAt s0.nextId ts (startTimer s0)).hasStarted = true ∧
    (runTicksAt s0.nextId ts (startTimer s0)).startAlarmCalls = 1 := by
  have h1 := startTimer_first s0 hhs hD
  have hrem1 : (startTimer s0).remainingTime =
      s0.inputHours * 3600 + s0.inputMinutes * 60 + s0.inputSeconds := by rw [h1]
  have hhs1 : (startTimer s0).hasStarted = true := by rw [h1]
  have hcalls1 : (startTimer s0).startAlarmCalls = 0 := by rw [h1]; exact hcalls
  have inv1 : TickRunInv s0.nextId (startTimer s0) := by
    refine ⟨by rw [h1]; exact hAI, Or.inl ⟨by rw [hrem1]; exact hD, ?_, ?_, ?_⟩⟩
    · rw [h1]
    · rw [h1]; simp [hL]
    · rw [h1]
  obtain ⟨r1, r2, r3, r4, r5⟩ := runTicksAt_spec s0.nextId ts (startTimer s0) inv1
  have hrem : (runTicksAt s0.nextId ts (startTimer s0)).remainingTime = 0 := by
    rw [r1, hrem1, ← hlen]; omega
  obtain ⟨_, hbr⟩ := r2
  have hend : (runTicksAt s0.nextId ts (startTimer s0)).intervalId = none ∧
      (runTicksAt s0.nextId ts (startTimer s0)).liveIntervals = [] ∧
      (runTicksAt s0.nextId ts (startTimer s0)).isRunning = false := by
    rcases hbr with ⟨hpos, _, _, _⟩ | ⟨_, h2, h3, h4⟩
    · rw [hrem] at hpos; omega
    · exact ⟨h2, h3, h4⟩
  refine ⟨hrem, hend.2.2, hend.1, hend.2.1, by rw [r3, hhs1], ?_⟩
  rw [r5, hcalls1, hrem1]
  have : (0 < s0.inputHours * 3600 + s0.inputMinutes * 60 + s0.inputSeconds ∧
      s0.inputHours * 3600 + s0.inputMinutes * 60 + s0.inputSeconds ≤
        (ts.length : Int)) := ⟨hD, by omega⟩
  simp [this]

/-- C2 witness: a 3-second timer started from the initial state and
three tick firings at instants 1, 2, 3. -/
theorem startTimer_then_D_ticks_expires_witness :
    (runTicksAt 0 [1, 2, 3] (startTimer { initState with inputSeconds := 3
      })).remainingTime = 0 ∧
    (runTicksAt 0 [1, 2, 3] (startTimer { initState with inputSeconds := 3
      })).isRunning = false ∧
    (runTicksAt 0 [1, 2, 3] (startTimer { initState with inputSeconds := 3
      })).intervalId = none ∧
    (runTicksAt 0 [1, 2, 3] (startTimer { initState with inputSeconds := 3
      })).liveIntervals = [] ∧
    (runTicksAt 0 [1, 2, 3] (startTimer { initState with inputSeconds := 3
      })).hasStarted = true ∧
    (runTicksAt 0 [1, 2, 3] (startTimer { initState with inputSeconds := 3
      })).startAlarmCalls = 1 :=
  startTimer_then_D_ticks_expires { initState with inputSeconds := 3 } [1, 2, 3]
    (by decide) (by decide) (by decide) (by decide) (by decide) (by decide)

/-- C1 counterexample: start a 10-second timer at instant 0, so the
spec's deadline is `0 + 10 = 10`.  A single delayed tick callback
arriving at instant 5 leaves `remainingTime = 9` (the code decrements
a counter per callback), while the claimed formula
`max(0, ceil(deadline − now))` gives `5`; hence the claim that every
tick recomputes `remaining = max(0, ceil(deadline − now))` is false of
the code. -/
theorem tick_is_not_deadline_derived :
    (tickFire 0 (advanceTo 5 (startTimer { initState with inputSeconds := 10
      }))).remainingTime = 9 ∧
    specRemaining (0 + 10) 5 = 5 ∧
    (9 : Int) ≠ 5 :=
  ⟨by decide, by decide, by decide⟩

/-- C1 (amended): ticks do not consult the wall clock.  Each tick
callback firing decrements `remainingTime` by one (stopping at zero
and disarming), so for a running session, after any sequence of
delayed or coalesced tick callbacks arriving at arbitrary instants
`ts`, `remainingTime = max(0, R − n)` where `R` is the remaining time
at the start of the run and `n` the number of callback firings —
independent of the instants. -/
theorem tick_run_decrements_per_callback (id : Nat) (ts : List Int) (s : AppState)
    (hInv : TickRunInv id s) :
    (runTicksAt id ts s).remainingTime = max 0 (s.remainingTime - ts.length) :=
  (runTicksAt_spec id ts s hInv).1

/-- C1 (amended) witness: a running 3-second session receiving three
callbacks at the badly-delayed instants 5, 7, 100 still ends with
`remainingTime = max 0 (3 - 3) = 0`. -/
theorem tick_run_decrements_per_callback_witness :
    TickRunInv 0 (startTimer { initState with inputSeconds := 3 }) ∧
    (runTicksAt 0 [5, 7, 100] (startTimer { initState with inputSeconds := 3
      })).remainingTime =
      max 0 ((startTimer { initState with inputSeconds := 3 }).remainingTime -
        (([5, 7, 100] : List Int).length : Int)) :=
  ⟨by unfold TickRunInv; decide,
   tick_run_decrements_per_callback 0 [5, 7, 100] _ (by unfold TickRunInv; decide)⟩

/-- C5: once `pauseTimer` has returned, any sequence of subsequent
tick firings and time advances — including delivery attempts of a tick
that was scheduled before the pause: the paused handle is no longer
armed, so it never fires — leaves `remainingTime` exactly as it was
when `pauseTimer` returned (which is the pre-pause value);
`pauseTimer` is idempotent, and on an already-paused session it is a
no-op.  The hypotheses say the armed intervals are exactly the stored
tick handle and `alarmIntervalId` is unset, as in every reachable
state. -/
theorem pause_freezes_remaining (s : AppState) (es : List TimeEv)
    (hLive : s.liveIntervals = s.intervalId.toList)
    (hAI : s.alarmIntervalId = none) :
    (runTimeEvs es (pauseTimer s)).remainingTime = s.remainingTime ∧
    (pauseTimer s).remainingTime = s.remainingTime ∧
    pauseTimer (pauseTimer s) = pauseTimer s ∧
    (s.isRunning = false → s.intervalId = none → pauseTimer s = s) := by
  have hrem : (pauseTimer s).remainingTime = s.remainingTime := by rw [pauseTimer_eq]
  have hL' : (pauseTimer s).liveIntervals = [] := by
    rw [pauseTimer_eq]
    cases h : s.intervalId with
    | none => rw [hLive, h]; rfl
    | some id => simp [h, hLive]
  have hAI' : (pauseTimer s).alarmIntervalId = none := by
    rw [pauseTimer_eq]; exact hAI
  obtain ⟨r1, _, _⟩ := runTimeEvs_frozen es (pauseTimer s) hL' hAI'
  exact ⟨by rw [r1, hrem], hrem, pauseTimer_idem s,
         fun h1 h2 => pauseTimer_noop s h1 h2⟩

/-- C5 witness: a running 5-second session, paused, then subjected to
a stale tick firing and a large time advance: `remainingTime` stays 5. -/
theorem pause_freezes_remaining_witness :
    (startTimer { initState with inputSeconds := 5 }).liveIntervals =
      (startTimer { initState with inputSeconds := 5 }).intervalId.toList ∧
    (runTimeEvs [TimeEv.tickF 0, TimeEv.adv 50]
      (pauseTimer (startTimer { initState with inputSeconds := 5
        }))).remainingTime =
      (startTimer { initState with inputSeconds := 5 }).remainingTime :=
  ⟨by decide,
   (pause_freezes_remaining (startTimer { initState with inputSeconds := 5 })
     [TimeEv.tickF 0, TimeEv.adv 50] (by decide) (by decide)).1⟩

/-- C6: for input fields in their documented non-negative ranges,
`canStart` is true iff a session exists with `remainingTime > 0` or no
session exists and the pending input duration is nonzero; whenever
`canStart` is false, `startTimer` returns the state completely
unchanged (it is a total function, so no error is raised); in
particular `startTimer` with a non-positive total input duration and
no session, or on a session with `remainingTime = 0`, changes
nothing. -/
theorem canStart_spec (s : AppState)
    (hh : 0 ≤ s.inputHours) (hm : 0 ≤ s.inputMinutes) (hsec : 0 ≤ s.inputSeconds) :
    (canStart s = true ↔
      ((s.hasStarted = true ∧ 0 < s.remainingTime) ∨
       (s.hasStarted = false ∧
         s.inputHours * 3600 + s.inputMinutes * 60 + s.inputSeconds ≠ 0))) ∧
    (canStart s = false → startTimer s = s) ∧
    (s.hasStarted = false →
      s.inputHours * 3600 + s.inputMinutes * 60 + s.inputSeconds ≤ 0 →
      startTimer s = s) ∧
    (s.hasStarted = true → s.remainingTime = 0 → startTimer s = s) := by
  refine ⟨?_, ?_, fun h1 h2 => startTimer_noop_unstarted s h1 h2,
          fun h1 h2 => startTimer_noop_expired s h1 (by omega)⟩
  · cases hhs : s.hasStarted with
    | true => simp [canStart, hhs]
    | false =>
      constructor
      · intro hc
        refine Or.inr ⟨rfl, ?_⟩
        simp [canStart, hhs] at hc
        omega
      · rintro (⟨hT, _⟩ | ⟨_, hne⟩)
        · simp [hhs] at hT
        · simp only [canStart, hhs, Bool.false_eq_true, if_false,
            Bool.or_eq_true, decide_eq_true_eq]
          omega
  · intro hc
    cases hhs : s.hasStarted with
    | true =>
      have hle : s.remainingTime ≤ 0 := by
        simp [canStart, hhs] at hc
        exact hc
      exact startTimer_noop_expired s hhs hle
    | false =>
      have hall : ¬ 0 < s.inputHours ∧ ¬ 0 < s.inputMinutes ∧
          ¬ 0 < s.inputSeconds := by
        simp [canStart, hhs] at hc
        exact ⟨by omega, by omega, by omega⟩
      exact startTimer_noop_unstarted s hhs (by omega)

/-- C6 witness: an un-started state whose only nonzero field is
45 seconds. -/
theorem canStart_spec_witness :
    (0 ≤ ({ initState with inputSeconds := 45 } : AppState).inputHours ∧
     0 ≤ ({ initState with inputSeconds := 45 } : AppState).inputMinutes ∧
     0 ≤ ({ initState with inputSeconds := 45 } : AppState).inputSeconds) ∧
    (canStart { initState with inputSeconds := 45 } = true ↔
      ((({ initState with inputSeconds := 45 } : AppState).hasStarted = true ∧
         0 < ({ initState with inputSeconds := 45 } : AppState).remainingTime) ∨
       (({ initState with inputSeconds := 45 } : AppState).hasStarted = false ∧
         ({ initState with inputSeconds := 45 } : AppState).inputHours * 3600 +
           ({ initState with inputSeconds := 45 } : AppState).inputMinutes * 60 +
           ({ initState with inputSeconds := 45 } : AppState).inputSeconds ≠ 0))) :=
  ⟨⟨by decide, by decide, by decide⟩,
   (canStart_spec { initState with inputSeconds := 45 }
     (by decide) (by decide) (by decide)).1⟩

/-- C9: the input fields are not clamped before feeding `startTimer`.
At input `(hours, minutes, seconds) = (0, 0, 75)` — 75 exceeds the
seconds field's declared maximum of 59 — the code starts a session
with `originalTime = 75`, whereas the claimed independent clamping
would give `clampedTotal 0 0 75 = 59`. -/
theorem startTimer_does_not_clamp_input :
    (startTimer { initState with inputSeconds := 75 }).originalTime = 75 ∧
    (startTimer { initState with inputSeconds := 75 }).remainingTime = 75 ∧
    clampedTotal 0 0 75 = 59 ∧
    (75 : Int) ≠ 59 :=
  ⟨by decide, by decide, by decide, by decide⟩

/-- C10: `deleteTimer` does not dismiss the alarm.  It leaves
`isAlarming`, `alarmTimeoutId`, the armed timeouts, `alarmIntervalId`,
`flashingMode` and the clock untouched, while clearing exactly the
timer fields (session, remaining/original, inputs, running flag, tick
handle); afterwards an active alarm still ends only through the
armed auto-dismiss timeout becoming due or an interaction click. -/
theorem deleteTimer_preserves_alarm (s : AppState) :
    (deleteTimer s).isAlarming = s.isAlarming ∧
    (deleteTimer s).alarmTimeoutId = s.alarmTimeoutId ∧
    (deleteTimer s).liveTimeouts = s.liveTimeouts ∧
    (deleteTimer s).alarmIntervalId = s.alarmIntervalId ∧
    (deleteTimer s).flashingMode = s.flashingMode ∧
    (deleteTimer s).now = s.now ∧
    (deleteTimer s).hasStarted = false ∧
    (deleteTimer s).remainingTime = 0 ∧
    (deleteTimer s).originalTime = 0 ∧
    (deleteTimer s).inputHours = 0 ∧
    (deleteTimer s).inputMinutes = 0 ∧
    (deleteTimer s).inputSeconds = 0 ∧
    (deleteTimer s).isRunning = false ∧
    (deleteTimer s).intervalId = none ∧
    (s.isAlarming = true → (handleWindowClick (deleteTimer s)).isAlarming = false) ∧
    (∀ u, (∀ p ∈ s.liveTimeouts, u < p.2) →
      (advanceTo u (deleteTimer s)).isAlarming = s.isAlarming) ∧
    (∀ u i ft, s.liveTimeouts = [(i, ft)] → ft ≤ u →
      (advanceTo u (deleteTimer s)).isAlarming = false) := by
  have hA : (deleteTimer s).isAlarming = s.isAlarming := by
    rw [deleteTimer_eq, pauseTimer_eq]
  have hT : (deleteTimer s).alarmTimeoutId = s.alarmTimeoutId := by
    rw [deleteTimer_eq, pauseTimer_eq]
  have hLT : (deleteTimer s).liveTimeouts = s.liveTimeouts := by
    rw [deleteTimer_eq, pauseTimer_eq]
  refine ⟨hA, hT, hLT, by rw [deleteTimer_eq, pauseTimer_eq],
    by rw [deleteTimer_eq, pauseTimer_eq], by rw [deleteTimer_eq, pauseTimer_eq],
    by rw [deleteTimer_eq], by rw [deleteTimer_eq], by rw [deleteTimer_eq],
    by rw [deleteTimer_eq], by rw [deleteTimer_eq], by rw [deleteTimer_eq],
    by rw [deleteTimer_eq, pauseTimer_eq], by rw [deleteTimer_eq, pauseTimer_eq],
    ?_, ?_, ?_⟩
  · intro h
    rw [handleWindowClick, if_pos (by rw [hA]; exact h), stopAlarm_eq]
  · intro u hall
    rw [advanceTo_eq]
    have hany : ((deleteTimer s).liveTimeouts.any (fun p => decide (p.2 ≤ u)))
        = false := by
      rw [hLT]
      simp only [List.any_eq_false, decide_eq_true_eq]
      intro p hp
      exact not_le.mpr (hall p hp)
    rw [if_neg (by simp [hany])]
    exact hA
  · intro u i ft hshape hdue
    rw [advanceTo_eq]
    have hany : ((deleteTimer s).liveTimeouts.any (fun p => decide (p.2 ≤ u)))
        = true := by
      rw [hLT, hshape]
      simp [hdue]
    rw [if_pos (by simp [hany]), stopAlarm_eq]

/-- C10 witness: a deleted timer while the alarm is active with its
auto-dismiss armed for instant 15: the alarm stays active, survives an
advance to instant 14, and ends at instant 15. -/
theorem deleteTimer_preserves_alarm_witness :
    (deleteTimer { initState with isAlarming := true, alarmTimeoutId := some 7, liveTimeouts := [(7, 15)], flashingMode := FlashMode.fast, hasStarted := true, originalTime := 9 }).isAlarming = true ∧
    (advanceTo 14 (deleteTimer { initState with isAlarming := true, alarmTimeoutId := some 7, liveTimeouts := [(7, 15)], flashingMode := FlashMode.fast, hasStarted := true, originalTime := 9 })).isAlarming = true ∧
    (advanceTo 15 (deleteTimer { initState with isAlarming := true, alarmTimeoutId := some 7, liveTimeouts := [(7, 15)], flashingMode := FlashMode.fast, hasStarted := true, originalTime := 9 })).isAlarming = false := by
  obtain ⟨hA, _, _, _, _, _, _, _, _, _, _, _, _, _, _, h16, h17⟩ :=
    deleteTimer_preserves_alarm { initState with isAlarming := true, alarmTimeoutId := some 7, liveTimeouts := [(7, 15)], flashingMode := FlashMode.fast, hasStarted := true, originalTime := 9 }
  exact ⟨by rw [hA], by rw [h16 14 (by decide)], h17 15 7 15 rfl (by decide)⟩

/-- C4: the alarm protocol.  From a state with the alarm inactive and
no armed timeout: triggering (`startAlarm`) with mode ≠ `'none'` sets
`isAlarming` and arms the fixed 10-second auto-dismiss timeout, while
triggering with mode `'none'` leaves the alarm inactive and arms
nothing; with no interaction the alarm is still active at every
instant before `trigger + 10` and inactive (timeout delivered and
cleared) at `trigger + 10`; an interaction click while active clears
`isAlarming` immediately and cancels the pending timeout; a click
while inactive is a no-op; and `stopAlarm` is idempotent — cancelling
an already-cancelled (or already-fired) timer is harmless (all
operations are total, so nothing errors). -/
theorem alarm_protocol (s s2 : AppState)
    (hIn : s.isAlarming = false) (hT : s.alarmTimeoutId = none)
    (hL : s.liveTimeouts = []) (hAI : s.alarmIntervalId = none) :
    (s.flashingMode = FlashMode.nofl →
      (startAlarm s).isAlarming = false ∧ (startAlarm s).alarmTimeoutId = none) ∧
    (s.flashingMode ≠ FlashMode.nofl →
      (startAlarm s).isAlarming = true ∧
      (startAlarm s).alarmTimeoutId = some s.nextId ∧
      (startAlarm s).liveTimeouts = [(s.nextId, s.now + 10)] ∧
      (∀ u, u < s.now + 10 → (advanceTo u (startAlarm s)).isAlarming = true) ∧
      (advanceTo (s.now + 10) (startAlarm s)).isAlarming = false ∧
      (advanceTo (s.now + 10) (startAlarm s)).alarmTimeoutId = none ∧
      (advanceTo (s.now + 10) (startAlarm s)).liveTimeouts = [] ∧
      (handleWindowClick (startAlarm s)).isAlarming = false ∧
      (handleWindowClick (startAlarm s)).alarmTimeoutId = none ∧
      (handleWindowClick (startAlarm s)).liveTimeouts = []) ∧
    handleWindowClick s = s ∧
    stopAlarm (stopAlarm s2) = stopAlarm s2 := by
  refine ⟨?_, ?_, handleWindowClick_noop s hIn, stopAlarm_idem s2⟩
  · intro hmode
    rw [startAlarm_eq_nofl s hmode]
    exact ⟨hIn, hT⟩
  · intro hmode
    have ha1 : (startAlarm s).isAlarming = true := by
      rw [startAlarm_eq_arm s hmode]
    have ha2 : (startAlarm s).alarmTimeoutId = some s.nextId := by
      rw [startAlarm_eq_arm s hmode]
    have ha3 : (startAlarm s).liveTimeouts = [(s.nextId, s.now + 10)] := by
      rw [startAlarm_eq_arm s hmode]
      simp [hL]
    obtain ⟨hbefore, hafter⟩ :=
      advanceTo_single_timeout (startAlarm s) s.nextId (s.now + 10) ha3
    refine ⟨ha1, ha2, ha3, ?_, ?_, ?_, ?_, ?_, ?_, ?_⟩
    · intro u hu
      rw [hbefore u hu]
      exact ha1
    · rw [hafter (s.now + 10) (le_refl _), stopAlarm_eq]
    · rw [hafter (s.now + 10) (le_refl _), stopAlarm_eq]
    · rw [hafter (s.now + 10) (le_refl _), stopAlarm_eq]
      simp [ha2]
    · rw [handleWindowClick, if_pos ha1, stopAlarm_eq]
    · rw [handleWindowClick, if_pos ha1, stopAlarm_eq]
    · rw [handleWindowClick, if_pos ha1, stopAlarm_eq]
      simp [ha2, ha3]

/-- C4 witness: the alarm triggered in `'fast'` mode from a fresh
state at instant 0. -/
theorem alarm_protocol_witness :
    (({ initState with flashingMode := FlashMode.fast } : AppState).isAlarming = false ∧
     ({ initState with flashingMode := FlashMode.fast } : AppState).alarmTimeoutId = none) ∧
    (startAlarm { initState with flashingMode := FlashMode.fast }).isAlarming = true ∧
    (advanceTo 3 (startAlarm { initState with flashingMode := FlashMode.fast })).isAlarming = true ∧
    (advanceTo 10 (startAlarm { initState with flashingMode := FlashMode.fast })).isAlarming = false ∧
    (handleWindowClick (startAlarm { initState with flashingMode := FlashMode.fast })).isAlarming = false := by
  obtain ⟨_, harm, _, _⟩ :=
    alarm_protocol { initState with flashingMode := FlashMode.fast } initState
      (by decide) (by decide) (by decide) (by decide)
  obtain ⟨a1, _, _, a4, a5, _, _, a8, _, _⟩ := harm (by decide)
  exact ⟨⟨by decide, by decide⟩, a1, a4 3 (by decide), a5, a8⟩

/-- C7: the progress fraction equals `remainingTime / originalTime`
when a session exists with nonzero original duration and `1`
otherwise, and lies in `[0, 1]` whenever the session invariant holds;
for the ring (circumference `2·π·140`, any rational value of π) and
for the square (perimeter `4 · (280 − 12)` of the inset square) the
dash offset is the total length times `1 − fraction`, so fraction `1`
gives offset `0` and fraction `0` gives offset the total length.  The
computation is a pure function of the state (deterministic and
stateless by construction). -/
theorem progress_fraction_spec (s : AppState) (piv : ℚ) (hInv : TimerInv s) :
    (0 ≤ progressPercent s ∧ progressPercent s ≤ 1) ∧
    (s.hasStarted = true → s.originalTime ≠ 0 →
      progressPercent s = (s.remainingTime : ℚ) / (s.originalTime : ℚ)) ∧
    (s.hasStarted = false ∨ s.originalTime = 0 → progressPercent s = 1) ∧
    progressOffsetOf piv s = ringCircumferenceOf piv * (1 - progressPercent s) ∧
    squareProgressOffset s = squarePerimeter * (1 - progressPercent s) ∧
    (progressPercent s = 1 →
      progressOffsetOf piv s = 0 ∧ squareProgressOffset s = 0) ∧
    (progressPercent s = 0 →
      progressOffsetOf piv s = ringCircumferenceOf piv ∧
      squareProgressOffset s = squarePerimeter) := by
  obtain ⟨h0, h1⟩ := hInv
  refine ⟨?_, ?_, ?_, rfl, rfl, ?_, ?_⟩
  · unfold progressPercent
    split
    · exact ⟨zero_le_one, le_refl 1⟩
    · rename_i hcond
      push_neg at hcond
      obtain ⟨hhs, horig⟩ := hcond
      have hop : (0 : ℚ) < (s.originalTime : ℚ) := by
        have : 0 < s.originalTime := by
          rcases lt_or_eq_of_le (le_trans h0 h1) with h | h
          · exact h
          · exact absurd h.symm horig
        exact_mod_cast this
      constructor
      · apply div_nonneg _ (le_of_lt hop)
        exact_mod_cast h0
      · rw [div_le_one hop]
        exact_mod_cast h1
  · intro hhs horig
    unfold progressPercent
    rw [if_neg]
    push_neg
    exact ⟨by simp [hhs], horig⟩
  · intro h
    unfold progressPercent
    rw [if_pos]
    rcases h with h | h
    · exact Or.inl (by simp [h])
    · exact Or.inr h
  · intro hp
    unfold progressOffsetOf squareProgressOffset
    rw [hp]
    norm_num
  · intro hp
    unfold progressOffsetOf squareProgressOffset
    rw [hp]
    norm_num

/-- C7 witness: the initial state (no session: fraction is 1, offsets
are 0) with π taken as 355/113. -/
theorem progress_fraction_spec_witness :
    TimerInv initState ∧
    (0 ≤ progressPercent initState ∧ progressPercent initState ≤ 1) ∧
    (progressPercent initState = 1 →
      progressOffsetOf (355 / 113) initState = 0 ∧
      squareProgressOffset initState = 0) :=
  ⟨⟨by decide, by decide⟩,
   (progress_fraction_spec initState (355 / 113) ⟨by decide, by decide⟩).1,
   (progress_fraction_spec initState (355 / 113) ⟨by decide, by decide⟩).2.2.2.2.2.1⟩

/-- C8 counterexample: `startTimer` does not disarm a previously armed
tick interval before arming a new one.  Starting a 5-second timer and
then calling `startTimer` again while it is running leaves two armed
intervals (handles 1 and 0) with only handle 1 stored, so the state
reached by the operation sequence `startTimer; startTimer` has more
than one tick handle armed — refuting the claim for arbitrary
operation sequences. -/
theorem double_start_leaks_interval :
    (startTimer (startTimer { initState with inputSeconds := 5 })).liveIntervals
      = [1, 0] ∧
    ¬ (startTimer (startTimer { initState with inputSeconds := 5
      })).liveIntervals.length ≤ 1 :=
  ⟨by decide, by decide⟩

/-- C8 (amended): the bare `startTimer` function does not disarm an
existing interval, so calling it while Running leaks the previous
handle; but under UI-mediated operation — each button press runs its
handler and then the bubbled window-click handler, and Start is only
invokable while the timer is not running — the handle discipline
`HandleInv` holds initially, is preserved by every event, and gives at
most one armed tick interval and at most one armed alarm timeout in
every reachable state. -/
theorem ui_handle_discipline (e : UIEv) (s : AppState) (hInv : HandleInv s) :
    HandleInv (uiStep e s) ∧
    (uiStep e s).liveIntervals.length ≤ 1 ∧
    (uiStep e s).liveTimeouts.length ≤ 1 ∧
    HandleInv initState := by
  have hinit : HandleInv initState :=
    ⟨rfl, rfl, rfl, fun _ => rfl, fun _ => rfl, fun _ => rfl⟩
  have hpres : HandleInv (uiStep e s) := by
    obtain ⟨i1, i2, i3, i4, i5, i6⟩ := hInv
    cases e with
    | pressStart =>
      cases hR : s.isRunning with
      | true =>
        rw [show uiStep UIEv.pressStart s = s by simp [uiStep, hR]]
        exact ⟨i1, i2, i3, i4, i5, i6⟩
      | false =>
        rw [show uiStep UIEv.pressStart s = handleWindowClick (startTimer s) by
          simp [uiStep, hR]]
        obtain ⟨c1, c4, cLT, cT, cAI, cA⟩ := startTimer_handle s hR i1 i4
        cases hA : s.isAlarming with
        | false =>
          have hT : s.alarmTimeoutId = none := i5 hA
          have hInv1 : HandleInv (startTimer s) := by
            refine ⟨c1, ?_, ?_, c4, ?_, ?_⟩
            · rw [cLT, cT]; exact i2
            · rw [cAI]; exact i3
            · intro _; rw [cT]; exact hT
            · intro _; rw [cT]; exact hT
          exact (handleWindowClick_handle _ hInv1).1
        | true =>
          have hA1 : (startTimer s).isAlarming = true := by rw [cA]; exact hA
          rw [handleWindowClick, if_pos hA1]
          refine (stopAlarm_handle (startTimer s) c1 ?_ c4 ?_).1
          · rw [cAI]; exact i3
          · intro p hp
            rw [cLT] at hp
            rw [cT]
            exact handleInv_timeouts_fst s i2 p hp
    | pressPause =>
      cases hR : s.isRunning with
      | true =>
        rw [show uiStep UIEv.pressPause s = handleWindowClick (pauseTimer s) by
          simp [uiStep, hR]]
        exact (handleWindowClick_handle _
          (pauseTimer_handle s ⟨i1, i2, i3, i4, i5, i6⟩).1).1
      | false =>
        rw [show uiStep UIEv.pressPause s = s by simp [uiStep, hR]]
        exact ⟨i1, i2, i3, i4, i5, i6⟩
    | pressReset =>
      have hinv2 : HandleInv (resetTimer s) := by
        rw [resetTimer_eq]
        exact (pauseTimer_handle s ⟨i1, i2, i3, i4, i5, i6⟩).1
      exact (handleWindowClick_handle _ hinv2).1
    | pressDelete =>
      have hinv2 : HandleInv (deleteTimer s) := by
        rw [deleteTimer_eq]
        exact (pauseTimer_handle s ⟨i1, i2, i3, i4, i5, i6⟩).1
      exact (handleWindowClick_handle _ hinv2).1
    | bgClick => exact (handleWindowClick_handle s ⟨i1, i2, i3, i4, i5, i6⟩).1
    | tickArrive id => exact tickFire_handle id s ⟨i1, i2, i3, i4, i5, i6⟩
    | timeAdvance t => exact advanceTo_handle t s ⟨i1, i2, i3, i4, i5, i6⟩
    | setInput h m sec => exact ⟨i1, i2, i3, i4, i5, i6⟩
    | setMode fm => exact ⟨i1, i2, i3, i4, i5, i6⟩
  exact ⟨hpres, (handleInv_len_bounds _ hpres).1, (handleInv_len_bounds _ hpres).2,
         hinit⟩

/-- C8 (amended) witness: a Start press on a fresh 5-second input
keeps the discipline. -/
theorem ui_handle_discipline_witness :
    HandleInv { initState with inputSeconds := 5 } ∧
    (HandleInv (uiStep UIEv.pressStart { initState with inputSeconds := 5 }) ∧
     (uiStep UIEv.pressStart { initState with inputSeconds := 5
       }).liveIntervals.length ≤ 1 ∧
     (uiStep UIEv.pressStart { initState with inputSeconds := 5
       }).liveTimeouts.length ≤ 1 ∧
     HandleInv initState) :=
  ⟨⟨rfl, rfl, rfl, fun _ => rfl, fun _ => rfl, fun _ => rfl⟩,
   ui_handle_discipline UIEv.pressStart { initState with inputSeconds := 5 }
     ⟨rfl, rfl, rfl, fun _ => rfl, fun _ => rfl, fun _ => rfl⟩⟩


end Timer
